import Mathlib

/-!
# Verification of the collaboration-recommendation engine

Shallow embedding of `app/recommender.py` (the `CollaborationRecommender`
class) and of the recommendation / knowledge-graph endpoints in
`app/main.py`, together with proofs of the specified properties.

Modelling conventions:
* Python floats are modelled by `ℚ`; a float that may be NaN (a pandas
  cell that may be missing) is modelled by `Option ℚ` with `none` = NaN,
  and arithmetic on such values propagates `none` the way IEEE arithmetic
  propagates NaN.
* A pandas `DataFrame` row of the corpus is an `AuthorRow`; the frame is a
  `List AuthorRow` and `df.iloc[idx]` is `List.get?`.
* Exceptions are modelled with `Except`: `RecError.modelNotLoaded` is the
  `ValueError("Model not loaded...")` of `recommend`, `RecError.indexError`
  is a pandas `.iloc` failure on an out-of-range index.
* Python's `sorted(..., key=k, reverse=True)` is a stable descending sort;
  it is embedded as `List.insertionSort` with the relation
  "key of the left argument is ≥ key of the right argument", which is the
  same stable descending order.  Comparison of NaN keys is unspecified in
  the source (NaN comparisons are all false); the embedding fixes an order
  (NaN last); theorems about result order never rely on the NaN case.
-/

namespace BackendAcademic

/-- One row of the corpus table `authors_data.pkl` (an `AuthorInterest`
record as assembled by `train_model.py`).  Numeric cells and text cells
may be missing (NaN), hence `Option`. -/
structure AuthorRow where
  authorId : String
  authorName : Option String
  articlesCount : Option ℚ
  interestsCount : Option ℚ
  mainInterest : Option String
deriving Repr, DecidableEq

/-- The dictionary built for one recommended author
(`recommender.py`, lines 127-137). -/
structure Recommendation where
  authorId : String
  authorName : String
  totalScore : Option ℚ
  similarityScore : ℚ
  productivityScore : Option ℚ
  diversityScore : Option ℚ
  articlesCount : ℤ
  interestsCount : ℤ
  mainInterest : Option String
deriving Repr, DecidableEq

/-- Python `int()` applied to a float: truncation toward zero. -/
def pyInt (q : ℚ) : ℤ := if q < 0 then ⌈q⌉ else ⌊q⌋

/-- pandas `Series.max()`: NaN cells are skipped; the max of an empty or
all-NaN column is NaN (`none`). -/
def colMax (cells : List (Option ℚ)) : Option ℚ := (cells.filterMap id).max?

/-- `value / maxValue if maxValue > 0 else 0`
(`recommender.py`, lines 117-118).  A NaN numerator propagates
(`cell = none` gives `none`); a NaN or non-positive `maxValue` fails the
Python comparison `maxValue > 0` and yields `0`. -/
def normalizedMetric (cell maxValue : Option ℚ) : Option ℚ :=
  match maxValue with
  | some m => if 0 < m then cell.map (fun c => c / m) else some 0
  | none => some 0

/-- NaN-propagating `similarity*0.6 + productivity*0.25 + diversity*0.15`
(`recommender.py`, lines 121-125). -/
def totalScoreOf (similarity : ℚ) (productivity diversity : Option ℚ) : Option ℚ :=
  productivity.bind fun p =>
    diversity.map fun d =>
      similarity * (6/10) + p * (25/100) + d * (15/100)

/-- Construction of one recommendation record from a surviving candidate
(`recommender.py`, lines 114-137). -/
def mkRecommendation (row : AuthorRow) (similarity : ℚ)
    (maxArticles maxInterests : Option ℚ) : Recommendation :=
  let productivity := normalizedMetric row.articlesCount maxArticles
  let diversity := normalizedMetric row.interestsCount maxInterests
  { authorId := row.authorId
    authorName := row.authorName.getD "Unknown"
    totalScore := totalScoreOf similarity productivity diversity
    similarityScore := similarity
    productivityScore := productivity
    diversityScore := diversity
    articlesCount := match row.articlesCount with
      | some a => pyInt a
      | none => 0
    interestsCount := match row.interestsCount with
      | some i => pyInt i
      | none => 0
    mainInterest := row.mainInterest }

/-! ## Profile builder (`_create_target_profile`, lines 63-84) -/

/-- Word characters of the regex module (`[a-zA-Z0-9_]`); the source text
is lowercased before matching.  The source regex is Unicode-aware; the
embedding restricts to ASCII, on which both coincide. -/
def isWordChar (c : Char) : Bool := c.isAlphanum || c = '_'

/-- Maximal runs of word characters of a character list (the substrings
delimited by `\b` word boundaries). -/
def wordRunsAux (acc : List Char) : List Char → List (List Char)
  | [] => if acc.isEmpty then [] else [acc.reverse]
  | c :: rest =>
    if isWordChar c then wordRunsAux (c :: acc) rest
    else if acc.isEmpty then wordRunsAux [] rest
    else acc.reverse :: wordRunsAux [] rest

/-- `re.findall(r'\b[a-z]{4,}\b', text.lower())`: the maximal word-character
runs of the lowercased text that consist solely of letters `a`-`z` and have
length at least 4.  Lowercasing is applied per character of the
underlying character list (the same thing `str.lower()` does on ASCII
text). -/
def findTokens (text : String) : List String :=
  (wordRunsAux [] (text.data.map Char.toLower)).filterMap fun run =>
    if 4 ≤ run.length && run.all (fun c => 'a' ≤ c && c ≤ 'z') then
      some (String.mk run)
    else none

/-- The fixed stop-word set of `_create_target_profile` (line 79). -/
def stopWords : List String :=
  ["research", "study", "analysis", "method", "results", "conclusion"]

/-- Accumulator loop for `firstSeen`: `acc` holds the keys seen so far in
reverse order. -/
def firstSeenAux (acc : List String) : List String → List String
  | [] => acc.reverse
  | w :: rest =>
    if w ∈ acc then firstSeenAux acc rest else firstSeenAux (w :: acc) rest

/-- Keys of a Python `Counter` built from a list: the distinct elements in
first-occurrence order. -/
def firstSeen (ws : List String) : List String := firstSeenAux [] ws

/-- Stable descending comparison by number of occurrences in `ws`:
`countGe ws a b` holds when `a` may precede `b`. -/
def countGe (ws : List String) (a b : String) : Prop := ws.count b ≤ ws.count a

instance (ws : List String) : DecidableRel (countGe ws) :=
  fun a b => inferInstanceAs (Decidable (_ ≤ _))

/-- `Counter(ws).most_common(n)` keys: the distinct elements sorted by
count descending, ties kept in first-encountered order (Python's
`nlargest` is documented equivalent to a stable descending sort followed
by truncation), truncated to `n`. -/
def mostCommonKeys (ws : List String) (n : ℕ) : List String :=
  (List.insertionSort (countGe ws) (firstSeen ws)).take n

/-- `_create_target_profile` (`recommender.py`, lines 63-84). -/
def createTargetProfile (interests : List String)
    (publications : Option (List String)) : String :=
  let keywords :=
    match publications with
    | none => []
    | some pubs =>
      if pubs.isEmpty then []
      else
        let allText := String.intercalate " " pubs
        let words := findTokens allText
        let filteredWords := words.filter (fun w => w ∉ stopWords)
        mostCommonKeys filteredWords 10
  String.intercalate " " (interests ++ keywords)

/-! ## Recommender state and `recommend` (`recommender.py`, lines 21-143) -/

instance {ε α : Type} [DecidableEq ε] [DecidableEq α] : DecidableEq (Except ε α) :=
  fun a b =>
    match a, b with
    | .ok x, .ok y => if h : x = y then isTrue (by rw [h]) else isFalse (by simp [h])
    | .error e, .error e2 =>
      if h : e = e2 then isTrue (by rw [h]) else isFalse (by simp [h])
    | .ok _, .error _ => isFalse (by simp)
    | .error _, .ok _ => isFalse (by simp)

/-- Errors raised inside `recommend`: the explicit
`ValueError("Model not loaded. Call load_model() first.")` of line 99, and
an out-of-range `df.iloc[idx]` lookup. -/
inductive RecError where
  | modelNotLoaded
  | indexError
deriving Repr, DecidableEq

/-- The mutable fields of `CollaborationRecommender` that `recommend`
reads.  `V` is the (opaque) type of feature vectors: the vectorizer's
`transform` is a function `String → V` and the knn model's `kneighbors`
is a function `V → ℕ → List ℚ × List ℕ` returning the flattened distance
row and the index row.  The sparse matrix `author_vectors` is loaded but
never read by `recommend`, so it is not part of the state. -/
structure RecommenderState (V : Type) where
  df : Option (List AuthorRow)
  vectorizer : Option (String → V)
  knnModel : Option (V → ℕ → List ℚ × List ℕ)
  maxArticles : Option ℚ
  maxInterests : Option ℚ

/-- `__init__` (lines 24-30): nothing loaded, both maxima `1`. -/
def initState (V : Type) : RecommenderState V :=
  { df := none, vectorizer := none, knnModel := none
    maxArticles := some 1, maxInterests := some 1 }

/-- The state after a fully successful `load_model` (lines 42-55): all
artifacts present and the maxima recomputed as the column maxima of the
corpus. -/
def loadModel {V : Type} (df : List AuthorRow) (vec : String → V)
    (knn : V → ℕ → List ℚ × List ℕ) : RecommenderState V :=
  { df := some df, vectorizer := some vec, knnModel := some knn
    maxArticles := colMax (df.map (·.articlesCount))
    maxInterests := colMax (df.map (·.interestsCount)) }

/-- The state left behind by one `load_model` attempt in which each
artifact file either deserializes (`some`) or raises (`none`).  Artifacts
are loaded in source order — corpus, vectorizer, vectors+knn — and the
first failure aborts the `try` block, leaving the fields loaded so far
(lines 42-61; the maxima of lines 54-55 are only reached on full
success).  A failed load of `author_vectors.npz` is folded into
`knnFile = none` since it likewise leaves `knn_model` unset. -/
def loadAttempt {V : Type} (dfFile : Option (List AuthorRow))
    (vecFile : Option (String → V))
    (knnFile : Option (V → ℕ → List ℚ × List ℕ)) : RecommenderState V :=
  match dfFile with
  | none => initState V
  | some df =>
    match vecFile with
    | none => { initState V with df := some df }
    | some vec =>
      match knnFile with
      | none => { initState V with df := some df, vectorizer := some vec }
      | some knn => loadModel df vec knn

/-- Sort-key comparison of possibly-NaN total scores, `none` last
(see the NaN remark in the module docstring). -/
def optKeyLe (x y : Option ℚ) : Bool :=
  match x, y with
  | none, _ => true
  | some _, none => false
  | some a, some b => decide (a ≤ b)

/-- "`a` may precede `b`" in `sorted(recommendations, key=total_score,
reverse=True)` (line 143): `b`'s total score is at most `a`'s. -/
def recDesc (a b : Recommendation) : Prop :=
  optKeyLe b.totalScore a.totalScore = true

instance : DecidableRel recDesc :=
  fun a b => inferInstanceAs (Decidable (_ = true))

instance : IsTotal Recommendation recDesc := by
  constructor
  intro a b
  simp only [recDesc, optKeyLe]
  cases a.totalScore <;> cases b.totalScore <;> simp [le_total]

instance : IsTrans Recommendation recDesc := by
  constructor
  intro a b c
  simp only [recDesc, optKeyLe]
  cases a.totalScore <;> cases b.totalScore <;> cases c.totalScore <;>
    simp <;> exact fun h h' => le_trans h' h

/-- The collection loop of `recommend` (lines 108-140): walk the
`(similarity, index)` pairs in order, skip candidates below the `0.1`
similarity floor, build a record for each survivor, and break as soon as
the collection, whose current size is `count`, reaches `top_k`. -/
def collectRecs (df : List AuthorRow) (maxArticles maxInterests : Option ℚ)
    (topK : ℕ) : List (ℚ × ℕ) → ℕ → Except RecError (List Recommendation)
  | [], _ => .ok []
  | (sim, idx) :: rest, count =>
    if sim < (1 : ℚ)/10 then collectRecs df maxArticles maxInterests topK rest count
    else
      match df[idx]? with
      | none => .error .indexError
      | some row =>
        let r := mkRecommendation row sim maxArticles maxInterests
        if topK ≤ count + 1 then .ok [r]
        else (collectRecs df maxArticles maxInterests topK rest (count + 1)).map
          (fun recs => r :: recs)

/-- `recommend` (lines 86-143). -/
def recommend {V : Type} (s : RecommenderState V) (interests : List String)
    (publications : Option (List String)) (topK : ℕ) :
    Except RecError (List Recommendation) :=
  match s.df, s.vectorizer, s.knnModel with
  | some df, some vec, some knn =>
    let targetProfile := createTargetProfile interests publications
    let targetVector := vec targetProfile
    let nNeighbors := min (topK * 10) df.length
    let queried := knn targetVector nNeighbors
    let similarities := queried.1.map (fun d => 1 - d)
    let pairs := similarities.zip queried.2
    (collectRecs df s.maxArticles s.maxInterests topK pairs 0).map
      (fun recs => (List.insertionSort recDesc recs).take topK)
  | _, _, _ => .error .modelNotLoaded

/-! ## Service endpoints (`app/main.py`) -/

/-- The health payload of `health_check` (`main.py`, lines 624-630). -/
structure HealthResponse where
  status : String
  authorsCount : ℕ
  modelLoaded : Bool
deriving Repr, DecidableEq

/-- `health_check` (`main.py`, lines 624-630). -/
def healthCheck {V : Type} (s : RecommenderState V) : HealthResponse :=
  { status := "healthy"
    authorsCount := match s.df with
      | some df => df.length
      | none => 0
    modelLoaded := s.df.isSome && s.knnModel.isSome }

/-- Outcome of the `/recommend` endpoint as seen by the caller:
a payload, HTTP 503, or HTTP 500. -/
inductive ApiResult (α : Type) where
  | ok (value : α)
  | serviceUnavailable
  | internalError
deriving DecidableEq

/-- `get_recommendations` (`main.py`, lines 633-668): 503 when the corpus
or the knn model is absent, otherwise `recommend`, whose exceptions
become 500. -/
def getRecommendations {V : Type} (s : RecommenderState V)
    (interests : List String) (publications : Option (List String))
    (topK : ℕ) : ApiResult (List Recommendation) :=
  if s.df.isNone || s.knnModel.isNone then .serviceUnavailable
  else
    match recommend s interests publications topK with
    | .ok recs => .ok recs
    | .error _ => .internalError

/-! ## Knowledge graph (`get_knowledge_graph`, `main.py` lines 671-813) -/

/-- `[i.strip() for i in s.split(',') if i.strip()]` guarded by the
truthiness check on the raw column (`main.py` lines 711-712, 720-721,
767-768).  A `NULL` column (`none`) and an empty string both yield `[]`. -/
def parseInterests (s : Option String) : List String :=
  match s with
  | none => []
  | some str => ((str.splitOn ",").map String.trim).filter (fun i => i ≠ "")

/-- The pairwise interest-overlap score computed identically for user
entities (lines 729-734) and author entities (lines 777-782): `0.0`
unless both interest lists are non-empty, else
`|A ∩ B| / |A ∪ B|` over the deduplicating `set(...)` views, guarded
against an empty union. -/
def jaccard (xs ys : List String) : ℚ :=
  if xs ≠ [] ∧ ys ≠ [] then
    let common := xs.toFinset ∩ ys.toFinset
    let total := xs.toFinset ∪ ys.toFinset
    if total.Nonempty then (common.card : ℚ) / (total.card : ℚ) else 0
  else 0

/-- Python `max(a, b)` where the second argument may be NaN: `b` is
returned only when `b > a` holds, so a NaN `b` leaves `a`. -/
def pyMax2 (a : ℚ) (b : Option ℚ) : ℚ :=
  match b with
  | none => a
  | some x => if a < x then x else a

/-- Lookup in a Python dict built by a comprehension over `pairs`
(later bindings of the same key win). -/
def pyDictGet {α : Type} (pairs : List (String × α)) (k : String) : Option α :=
  pairs.reverse.lookup k

/-- A registered user row as read by the knowledge-graph view
(the `users` table, `app/models.py`). -/
structure UserEntity where
  id : ℕ
  interestsList : Option String
deriving Repr, DecidableEq

/-- An external author row as read by the knowledge-graph view
(the `author_interests` table, `app/models.py`; `author_id` is a
non-nullable column). -/
structure AuthorEntity where
  id : ℕ
  authorId : String
  interestsList : Option String
deriving Repr, DecidableEq

/-- Final score of one author entity (`main.py` lines 777-785): the
Jaccard overlap, raised to the model's total score when the author id
appears in the id set of the ML recommendations.  `recommendation_scores`
is the dict `{rec['author_id']: rec['total_score']}` and the `.get(id,
0.0)` default is the float `0.0`. -/
def authorEntityScore (currentUserInterests : List String)
    (ai : AuthorEntity) (mlRecs : List Recommendation) : ℚ :=
  let authorInterestList := parseInterests ai.interestsList
  let base := jaccard currentUserInterests authorInterestList
  if ai.authorId ∈ mlRecs.map (fun r => r.authorId) then
    pyMax2 base
      ((pyDictGet (mlRecs.map (fun r => (r.authorId, r.totalScore))) ai.authorId).getD (some 0))
  else base

/-- Tag distinguishing the two entity kinds pooled by the graph view. -/
inductive EntityType where
  | user
  | author
deriving Repr, DecidableEq

/-- One scored entity of the graph view before sorting/truncation. -/
structure ScoredEntity where
  etype : EntityType
  eid : ℕ
  score : ℚ
deriving Repr, DecidableEq

/-- The pooled scored entities of `get_knowledge_graph` (`main.py` lines
714-796): every user other than the current one scored by pure Jaccard
overlap, then every author scored by `authorEntityScore`; author node ids
are offset by `100000` (line 788). -/
def knowledgeGraphEntities (currentUserInterests : List String)
    (users : List UserEntity) (authors : List AuthorEntity)
    (mlRecs : List Recommendation) : List ScoredEntity :=
  users.map (fun u =>
    { etype := .user, eid := u.id
      score := jaccard currentUserInterests (parseInterests u.interestsList) })
  ++ authors.map (fun a =>
    { etype := .author, eid := a.id + 100000
      score := authorEntityScore currentUserInterests a mlRecs })

/-! ## Derived definitions used by the statements -/

instance (ws : List String) : IsTotal String (countGe ws) :=
  ⟨fun a b => (le_total (ws.count b) (ws.count a)).imp id id⟩

instance (ws : List String) : IsTrans String (countGe ws) :=
  ⟨fun _ _ _ hab hbc => le_trans hbc hab⟩

/-- The `(similarity, index)` pair list that `recommend` walks
(`recommender.py`, lines 104-110), as a function of the loaded artifacts
and the request. -/
def neighborPairs {V : Type} (df : List AuthorRow) (vec : String → V)
    (knn : V → ℕ → List ℚ × List ℕ) (interests : List String)
    (publications : Option (List String)) (topK : ℕ) : List (ℚ × ℕ) :=
  let queried := knn (vec (createTargetProfile interests publications))
    (min (topK * 10) df.length)
  (queried.1.map (fun d => 1 - d)).zip queried.2

/-- Modelled from the spec wording of the collection step (claim C2):
the first `topK` pairs surviving the `0.1` similarity floor, in the given
(ascending-distance) order, each resolved to a recommendation record.
To be compared with the early-terminating loop `collectRecs`. -/
def specCollect (df : List AuthorRow) (maxArticles maxInterests : Option ℚ)
    (topK : ℕ) (pairs : List (ℚ × ℕ)) : List Recommendation :=
  ((pairs.filter (fun pr => decide ((1 : ℚ)/10 ≤ pr.1))).take topK).filterMap
    (fun pr => (df[pr.2]?).map (fun row => mkRecommendation row pr.1 maxArticles maxInterests))

/-! ## Sample data (used only to instantiate theorems at concrete inputs) -/

def sampleRow1 : AuthorRow :=
  ⟨"A1", some "Alice", some 20, some 5, some "machine learning"⟩

def sampleRow2 : AuthorRow := ⟨"A2", none, none, some 2, none⟩

def sampleRow3 : AuthorRow := ⟨"A3", some "Carol", some 10, some 1, some "bio"⟩

def cleanDf : List AuthorRow := [sampleRow1, sampleRow3]

def sampleKnn : Unit → ℕ → List ℚ × List ℕ := fun _ n =>
  (([0, (1 : ℚ)/2].take n), ([0, 1].take n))

def cleanState : RecommenderState Unit :=
  loadModel cleanDf (fun _ => ()) sampleKnn

def nanDf : List AuthorRow := [sampleRow1, sampleRow2, sampleRow3]

def nanKnn : Unit → ℕ → List ℚ × List ℕ := fun _ n =>
  (([(1 : ℚ)/2].take n), ([1].take n))

def nanState : RecommenderState Unit :=
  loadModel nanDf (fun _ => ()) nanKnn

/-- The two records `recommend cleanState ["machine learning"] none 2`
produces. -/
def cleanRecs : List Recommendation :=
  [{ authorId := "A1", authorName := "Alice", totalScore := some 1
     similarityScore := 1, productivityScore := some 1
     diversityScore := some 1, articlesCount := 20, interestsCount := 5
     mainInterest := some "machine learning" },
   { authorId := "A3", authorName := "Carol", totalScore := some ((91 : ℚ)/200)
     similarityScore := (1 : ℚ)/2, productivityScore := some ((1 : ℚ)/2)
     diversityScore := some ((1 : ℚ)/5), articlesCount := 10, interestsCount := 1
     mainInterest := some "bio" }]

/-- The single record `recommend nanState ["machine learning"] none 1`
produces: the corpus row has a NaN articles count, so the derived
productivity and total scores are NaN while the reported count is `0`. -/
def nanRec : Recommendation :=
  { authorId := "A2", authorName := "Unknown", totalScore := none
    similarityScore := (1 : ℚ)/2, productivityScore := none
    diversityScore := some ((2 : ℚ)/5), articlesCount := 0
    interestsCount := 2, mainInterest := none }

def sampleUser : UserEntity := ⟨7, some "machine learning"⟩

def sampleAuthor : AuthorEntity := ⟨1, "A1", some "machine learning, bio"⟩

/-- The scored graph entity produced for `sampleUser` when the active
user's interest list is `["machine learning"]`. -/
def sampleUserEntity : ScoredEntity :=
  ⟨.user, 7, jaccard ["machine learning"] (parseInterests sampleUser.interestsList)⟩

/-! ## Theorems -/

/-- C8: the graph-fallback Jaccard score is symmetric, equals `1` on any
non-empty list paired with itself, and equals `0` when both interest
lists are empty (empty union). -/
theorem jaccard_algebra (xs ys : List String) :
    jaccard xs ys = jaccard ys xs ∧
    (xs ≠ [] → jaccard xs xs = 1) ∧
    jaccard ([] : List String) [] = 0 := by
  refine ⟨?_, ?_, by simp [jaccard]⟩
  · by_cases hx : xs = [] <;> by_cases hy : ys = [] <;>
      simp [jaccard, hx, hy, Finset.inter_comm, Finset.union_comm]
  · intro hx
    have hne : xs.toFinset.Nonempty := (List.toFinset_nonempty_iff xs).mpr hx
    have hcard : (xs.toFinset.card : ℚ) ≠ 0 := by
      exact_mod_cast Finset.card_ne_zero.mpr hne
    simp [jaccard, hx, Finset.inter_self, Finset.union_self, hne, div_self hcard]

/-- C8 witness: the theorem instantiated at `["a"]` and `["b"]`. -/
theorem jaccard_algebra_witness :
    jaccard ["a"] ["b"] = jaccard ["b"] ["a"] ∧
    (["a"] : List String) ≠ [] ∧ jaccard ["a"] ["a"] = 1 := by
  obtain ⟨hsymm, hrefl, _⟩ := jaccard_algebra ["a"] ["b"]
  exact ⟨hsymm, by decide, hrefl (by decide)⟩

/-- C7: in every state reachable by a load attempt, the health surface
reports the corpus size (`0` when no corpus is loaded) and a model-loaded
flag that is `true` only when corpus, vectorizer and neighbor index are
all present. -/
theorem health_surface {V : Type} (dfFile : Option (List AuthorRow))
    (vecFile : Option (String → V))
    (knnFile : Option (V → ℕ → List ℚ × List ℕ)) :
    ((healthCheck (loadAttempt dfFile vecFile knnFile)).modelLoaded = true →
      (loadAttempt dfFile vecFile knnFile).df.isSome ∧
      (loadAttempt dfFile vecFile knnFile).vectorizer.isSome ∧
      (loadAttempt dfFile vecFile knnFile).knnModel.isSome) ∧
    ((loadAttempt dfFile vecFile knnFile).df = none →
      (healthCheck (loadAttempt dfFile vecFile knnFile)).authorsCount = 0) ∧
    (∀ df, (loadAttempt dfFile vecFile knnFile).df = some df →
      (healthCheck (loadAttempt dfFile vecFile knnFile)).authorsCount = df.length) := by
  cases dfFile <;> cases vecFile <;> cases knnFile <;>
    simp [loadAttempt, healthCheck, initState, loadModel]

/-- C7 witness: a fully loaded state reports the flag `true`, all three
artifacts present, and the corpus size `2`. -/
theorem health_surface_witness :
    (healthCheck (loadAttempt (some cleanDf) (some (fun _ => ()))
        (some sampleKnn))).modelLoaded = true ∧
    (loadAttempt (some cleanDf) (some (fun _ => ())) (some sampleKnn)).vectorizer.isSome ∧
    (healthCheck (loadAttempt (some cleanDf) (some (fun _ => ()))
        (some sampleKnn))).authorsCount = 2 := by
  refine ⟨rfl, ?_, ?_⟩
  · exact (health_surface (some cleanDf) (some (fun _ => ())) (some sampleKnn)).1 rfl |>.2.1
  · exact (health_surface (some cleanDf) (some (fun _ => ())) (some sampleKnn)).2.2 cleanDf rfl

/-- Helper: the collection loop can only fail with an index error, never
with the model-not-loaded error. -/
theorem collectRecs_error_eq (df : List AuthorRow) (mA mI : Option ℚ) (topK : ℕ) :
    ∀ (pairs : List (ℚ × ℕ)) (count : ℕ) (e : RecError),
      collectRecs df mA mI topK pairs count = .error e → e = .indexError := by
  intro pairs
  induction pairs with
  | nil => intro count e h; simp [collectRecs] at h
  | cons pr rest ih =>
    intro count e h
    obtain ⟨sim, idx⟩ := pr
    rw [collectRecs] at h
    split at h
    · exact ih _ _ h
    · split at h
      · cases h; rfl
      · split at h
        · cases h
        · cases hc : collectRecs df mA mI topK rest (count + 1) with
          | ok recs => rw [hc] at h; simp [Except.map] at h
          | error e2 =>
            rw [hc] at h
            simp only [Except.map, Except.error.injEq] at h
            exact h ▸ ih _ _ hc

/-- Helper: mapping a function over a result that can only be an index
error never produces the model-not-loaded error. -/
theorem except_map_ne_mnl {α β : Type} (x : Except RecError α) (f : α → β)
    (hx : ∀ e, x = .error e → e = .indexError) :
    Except.map f x ≠ .error .modelNotLoaded := by
  intro h
  cases x with
  | ok a => simp [Except.map] at h
  | error e =>
    simp only [Except.map, Except.error.injEq] at h
    rw [hx e rfl] at h
    exact RecError.noConfusion h

/-- Helper: with corpus and knn model present the endpoint never answers
service-unavailable. -/
theorem getRecommendations_ne_unavailable {V : Type} (s : RecommenderState V)
    (hdf : s.df.isSome) (hknn : s.knnModel.isSome)
    (interests : List String) (publications : Option (List String)) (topK : ℕ) :
    getRecommendations s interests publications topK ≠ .serviceUnavailable := by
  have h1 : s.df.isNone = false := by
    cases hdf2 : s.df
    · rw [hdf2] at hdf; simp at hdf
    · rfl
  have h2 : s.knnModel.isNone = false := by
    cases hknn2 : s.knnModel
    · rw [hknn2] at hknn; simp at hknn
    · rfl
  unfold getRecommendations
  rw [h1, h2]
  simp only [Bool.or_self, if_false, Bool.false_eq_true, if_neg]
  cases h : recommend s interests publications topK <;> simp [h]

/-- C6: `recommend` fails with the model-not-loaded error exactly when
corpus table, vectorizer or neighbor index is absent; on the states a
load attempt can leave behind, the endpoint surfaces exactly that
condition as service-unavailable; and in that condition `recommend`
never returns a (possibly empty) result list. -/
theorem model_not_loaded_iff (V : Type) :
    (∀ (s : RecommenderState V) interests publications topK,
      recommend s interests publications topK = .error .modelNotLoaded ↔
        (s.df = none ∨ s.vectorizer = none ∨ s.knnModel = none)) ∧
    (∀ (dfFile : Option (List AuthorRow)) (vecFile : Option (String → V))
        (knnFile : Option (V → ℕ → List ℚ × List ℕ)) interests publications topK,
      getRecommendations (loadAttempt dfFile vecFile knnFile) interests publications topK
          = .serviceUnavailable ↔
        ((loadAttempt dfFile vecFile knnFile).df = none ∨
         (loadAttempt dfFile vecFile knnFile).vectorizer = none ∨
         (loadAttempt dfFile vecFile knnFile).knnModel = none)) ∧
    (∀ (s : RecommenderState V) interests publications topK recs,
      (s.df = none ∨ s.vectorizer = none ∨ s.knnModel = none) →
      recommend s interests publications topK ≠ .ok recs) := by
  have hrec : ∀ (s : RecommenderState V) interests publications topK,
      recommend s interests publications topK = .error .modelNotLoaded ↔
        (s.df = none ∨ s.vectorizer = none ∨ s.knnModel = none) := by
    intro s interests publications topK
    obtain ⟨df, vec, knn, mA, mI⟩ := s
    cases df <;> cases vec <;> cases knn <;> simp only [recommend] <;> simp
    rename_i df vec knn
    exact except_map_ne_mnl _ _ (collectRecs_error_eq df mA mI topK _ 0)
  refine ⟨hrec, ?_, ?_⟩
  · intro dfFile vecFile knnFile interests publications topK
    cases dfFile <;> cases vecFile <;> cases knnFile <;>
      simp only [loadAttempt, getRecommendations, initState, loadModel] <;> simp
    rename_i df vec knn
    have := getRecommendations_ne_unavailable (loadModel df vec knn)
      (by simp [loadModel]) (by simp [loadModel]) interests publications topK
    simpa [getRecommendations, loadModel] using this
  · intro s interests publications topK recs hcond
    rw [(hrec s interests publications topK).mpr hcond]
    simp

/-- C6 witness: in the initial (never loaded) state `recommend` raises the
model-not-loaded error and the endpoint answers service-unavailable. -/
theorem model_not_loaded_iff_witness :
    recommend (initState Unit) ["machine learning"] none 5
        = .error .modelNotLoaded ∧
    getRecommendations (loadAttempt none none none : RecommenderState Unit)
        ["machine learning"] none 5 = .serviceUnavailable := by
  have h := model_not_loaded_iff Unit
  exact ⟨(h.1 (initState Unit) ["machine learning"] none 5).mpr (Or.inl rfl),
    (h.2.1 none none none ["machine learning"] none 5).mpr (Or.inl rfl)⟩

/-- C4: `recommend` consults the neighbor index only through its answer
for exactly `min(topK * 10, corpus_size)` requested neighbors — two
indexes agreeing on that one query are interchangeable. -/
theorem neighbors_request_count {V : Type} (df : List AuthorRow)
    (vec : String → V) (knn₁ knn₂ : V → ℕ → List ℚ × List ℕ)
    (interests : List String) (publications : Option (List String)) (topK : ℕ)
    (h : knn₁ (vec (createTargetProfile interests publications))
          (min (topK * 10) df.length)
       = knn₂ (vec (createTargetProfile interests publications))
          (min (topK * 10) df.length)) :
    recommend (loadModel df vec knn₁) interests publications topK
      = recommend (loadModel df vec knn₂) interests publications topK := by
  simp only [recommend, loadModel, h]

/-- C4 witness: the theorem applied to two identical indexes on the
sample corpus. -/
theorem neighbors_request_count_witness :
    sampleKnn ((fun _ => ()) (createTargetProfile ["machine learning"] none))
        (min (2 * 10) cleanDf.length)
      = sampleKnn ((fun _ => ()) (createTargetProfile ["machine learning"] none))
        (min (2 * 10) cleanDf.length) ∧
    recommend (loadModel cleanDf (fun _ => ()) sampleKnn) ["machine learning"] none 2
      = recommend (loadModel cleanDf (fun _ => ()) sampleKnn) ["machine learning"] none 2 :=
  ⟨rfl, neighbors_request_count cleanDf (fun _ => ()) sampleKnn sampleKnn
    ["machine learning"] none 2 rfl⟩

/-- Helper: `recommend` on a fully loaded state unfolds to the collection
loop over `neighborPairs` followed by the stable descending sort and the
`top_k` truncation. -/
theorem recommend_loadModel_eq {V : Type} (df : List AuthorRow)
    (vec : String → V) (knn : V → ℕ → List ℚ × List ℕ)
    (interests : List String) (publications : Option (List String)) (topK : ℕ) :
    recommend (loadModel df vec knn) interests publications topK =
      (collectRecs df (colMax (df.map (·.articlesCount)))
        (colMax (df.map (·.interestsCount))) topK
        (neighborPairs df vec knn interests publications topK) 0).map
        (fun recs => (List.insertionSort recDesc recs).take topK) := rfl

/-- Helper: every record in a successful collection is built by
`mkRecommendation` from a corpus row resolved from some neighbor pair
that survived the `0.1` similarity floor. -/
theorem collectRecs_ok_mem (df : List AuthorRow) (mA mI : Option ℚ) (topK : ℕ) :
    ∀ (pairs : List (ℚ × ℕ)) (count : ℕ) (recs : List Recommendation),
      collectRecs df mA mI topK pairs count = .ok recs →
      ∀ r ∈ recs, ∃ (sim : ℚ) (idx : ℕ) (row : AuthorRow), df[idx]? = some row ∧ (1 : ℚ)/10 ≤ sim ∧
        r = mkRecommendation row sim mA mI := by
  intro pairs
  induction pairs with
  | nil =>
    intro count recs h r hr
    rw [collectRecs] at h
    cases h
    simp at hr
  | cons pr rest ih =>
    intro count recs h r hr
    obtain ⟨sim, idx⟩ := pr
    rw [collectRecs] at h
    split at h
    · exact ih _ _ h r hr
    · rename_i hsim
      split at h
      · cases h
      · rename_i row hrow
        split at h
        · cases h
          simp only [List.mem_singleton] at hr
          exact ⟨sim, idx, row, hrow, not_lt.mp hsim, hr⟩
        · cases hc : collectRecs df mA mI topK rest (count + 1) with
          | ok recs2 =>
            rw [hc] at h
            simp only [Except.map, Except.ok.injEq] at h
            subst h
            rcases List.mem_cons.mp hr with h1 | h2
            · exact ⟨sim, idx, row, hrow, not_lt.mp hsim, h1⟩
            · exact ih _ _ hc r h2
          | error e =>
            rw [hc] at h
            simp [Except.map] at h

/-- Helper: a present numeric cell keeps the normalized metric present
(non-NaN). -/
theorem normalizedMetric_isSome (cell m : Option ℚ) (h : cell.isSome) :
    (normalizedMetric cell m).isSome := by
  obtain ⟨c, rfl⟩ := Option.isSome_iff_exists.mp h
  cases m with
  | none => simp [normalizedMetric]
  | some v =>
    by_cases hv : 0 < v <;> simp [normalizedMetric, hv]

/-- Helper: present numeric cells make the derived total score present
(non-NaN). -/
theorem mkRecommendation_total_isSome (row : AuthorRow) (sim : ℚ)
    (mA mI : Option ℚ) (ha : row.articlesCount.isSome)
    (hi : row.interestsCount.isSome) :
    (mkRecommendation row sim mA mI).totalScore.isSome := by
  have hp := normalizedMetric_isSome row.articlesCount mA ha
  have hd := normalizedMetric_isSome row.interestsCount mI hi
  obtain ⟨p, hp2⟩ := Option.isSome_iff_exists.mp hp
  obtain ⟨d, hd2⟩ := Option.isSome_iff_exists.mp hd
  simp [mkRecommendation, totalScoreOf, hp2, hd2]

/-- C1: with the model loaded (over a corpus with present numeric
fields), `recommend` returns at most `top_k` records, every returned
record has similarity at least `0.1`, and the list is sorted by total
score in descending order. -/
theorem recommend_contract {V : Type} (df : List AuthorRow) (vec : String → V)
    (knn : V → ℕ → List ℚ × List ℕ) (interests : List String)
    (publications : Option (List String)) (topK : ℕ) (recs : List Recommendation)
    (hne : interests ≠ []) (hk : 1 ≤ topK)
    (hclean : ∀ row ∈ df, row.articlesCount.isSome ∧ row.interestsCount.isSome)
    (hok : recommend (loadModel df vec knn) interests publications topK = .ok recs) :
    recs.length ≤ topK ∧
    (∀ r ∈ recs, (1 : ℚ)/10 ≤ r.similarityScore) ∧
    recs.Pairwise (fun a b => b.totalScore.getD 0 ≤ a.totalScore.getD 0) := by
  rw [recommend_loadModel_eq] at hok
  cases hc : collectRecs df (colMax (df.map (·.articlesCount)))
      (colMax (df.map (·.interestsCount))) topK
      (neighborPairs df vec knn interests publications topK) 0 with
  | error e => rw [hc] at hok; simp [Except.map] at hok
  | ok collected =>
    rw [hc] at hok
    simp only [Except.map, Except.ok.injEq] at hok
    subst hok
    have hmem : ∀ r ∈ (List.insertionSort recDesc collected).take topK,
        ∃ (sim : ℚ) (idx : ℕ) (row : AuthorRow), df[idx]? = some row ∧ (1 : ℚ)/10 ≤ sim ∧
          r = mkRecommendation row sim (colMax (df.map (·.articlesCount)))
            (colMax (df.map (·.interestsCount))) := by
      intro r hr
      have hr2 := List.mem_of_mem_take hr
      have hr3 := (List.perm_insertionSort recDesc collected).mem_iff.mp hr2
      exact collectRecs_ok_mem df _ _ topK _ 0 collected hc r hr3
    refine ⟨List.length_take_le topK _, ?_, ?_⟩
    · intro r hr
      obtain ⟨sim, idx, row, hrow, hsim, rfl⟩ := hmem r hr
      exact hsim
    · have hsome : ∀ r ∈ (List.insertionSort recDesc collected).take topK,
          r.totalScore.isSome := by
        intro r hr
        obtain ⟨sim, idx, row, hrow, hsim, rfl⟩ := hmem r hr
        have hrowmem : row ∈ df := by
          obtain ⟨hi2, rfl⟩ := List.getElem?_eq_some.mp hrow
          exact List.getElem_mem _
        exact mkRecommendation_total_isSome row sim _ _ (hclean row hrowmem).1
          (hclean row hrowmem).2
      have hsorted : ((List.insertionSort recDesc collected).take topK).Pairwise recDesc :=
        (List.sorted_insertionSort recDesc collected).sublist
          (List.take_sublist topK _)
      refine List.Pairwise.imp_of_mem ?_ hsorted
      intro a b hma hmb hab
      obtain ⟨ta, hta⟩ := Option.isSome_iff_exists.mp (hsome a hma)
      obtain ⟨tb, htb⟩ := Option.isSome_iff_exists.mp (hsome b hmb)
      simp only [recDesc, optKeyLe, hta, htb, decide_eq_true_eq] at hab
      simp [hta, htb, hab]

/-- Helper: with fewer than `topK` records already collected and all
neighbor indices in range, the early-terminating loop collects exactly
the first `topK - count` threshold-surviving pairs in order. -/
theorem collectRecs_eq_specCollect (df : List AuthorRow) (mA mI : Option ℚ)
    (topK : ℕ) :
    ∀ (pairs : List (ℚ × ℕ)) (count : ℕ), count < topK →
      (∀ pr ∈ pairs, pr.2 < df.length) →
      collectRecs df mA mI topK pairs count =
        .ok (((pairs.filter (fun pr => decide ((1 : ℚ)/10 ≤ pr.1))).take
            (topK - count)).filterMap
          (fun pr => (df[pr.2]?).map (fun row => mkRecommendation row pr.1 mA mI))) := by
  intro pairs
  induction pairs with
  | nil =>
    intro count hc hv
    rw [collectRecs]
    simp
  | cons pr rest ih =>
    intro count hc hv
    obtain ⟨sim, idx⟩ := pr
    rw [collectRecs]
    by_cases hsim : sim < (1 : ℚ)/10
    · have hfilter : List.filter (fun pr => decide ((1 : ℚ)/10 ≤ pr.1)) ((sim, idx) :: rest)
          = List.filter (fun pr => decide ((1 : ℚ)/10 ≤ pr.1)) rest := by
        have hsim' : sim < (10 : ℚ)⁻¹ := by rwa [one_div] at hsim
        simp [List.filter_cons, not_le.mpr hsim']
      rw [if_pos hsim, ih count hc (fun p hp => hv p (List.mem_cons_of_mem _ hp)), hfilter]
    · have hfilter : List.filter (fun pr => decide ((1 : ℚ)/10 ≤ pr.1)) ((sim, idx) :: rest)
          = (sim, idx) :: List.filter (fun pr => decide ((1 : ℚ)/10 ≤ pr.1)) rest := by
        have hsim' : (10 : ℚ)⁻¹ ≤ sim := by
          rw [← one_div]
          exact not_lt.mp hsim
        simp [List.filter_cons, hsim']
      rw [if_neg hsim]
      have hidx : idx < df.length := hv (sim, idx) (List.mem_cons_self _ _)
      have hrow : df[idx]? = some df[idx] := List.getElem?_eq_getElem hidx
      rw [hrow]
      by_cases hstop : topK ≤ count + 1
      · have heq : topK - count = 1 := by omega
        simp only [if_pos hstop]
        rw [hfilter, heq, List.take_succ_cons, List.take_zero, List.filterMap_cons, hrow]
        simp
      · simp only [if_neg hstop]
        rw [ih (count + 1) (lt_of_not_le hstop)
          (fun p hp => hv p (List.mem_cons_of_mem _ hp))]
        have harith : topK - count = (topK - (count + 1)) + 1 := by omega
        rw [hfilter, harith, List.take_succ_cons, List.filterMap_cons, hrow]
        simp [Except.map]

/-- C2: with the model loaded, `top_k ≥ 1` and in-range neighbor indices,
`recommend` returns exactly the first `top_k` threshold-surviving
candidates in ascending-distance order, re-sorted by total score
descending and truncated to `top_k` — only that collected set is sorted. -/
theorem recommend_first_survivors {V : Type} (df : List AuthorRow)
    (vec : String → V) (knn : V → ℕ → List ℚ × List ℕ)
    (interests : List String) (publications : Option (List String)) (topK : ℕ)
    (hk : 1 ≤ topK)
    (hvalid : ∀ pr ∈ neighborPairs df vec knn interests publications topK,
      pr.2 < df.length) :
    recommend (loadModel df vec knn) interests publications topK =
      .ok ((List.insertionSort recDesc
        (specCollect df (colMax (df.map (·.articlesCount)))
          (colMax (df.map (·.interestsCount))) topK
          (neighborPairs df vec knn interests publications topK))).take topK) := by
  rw [recommend_loadModel_eq,
    collectRecs_eq_specCollect df _ _ topK _ 0 hk hvalid]
  simp [specCollect, Except.map]

/-- Helper: in-range neighbor indices guarantee the collection loop
succeeds (no exception escapes). -/
theorem collectRecs_ok_of_valid (df : List AuthorRow) (mA mI : Option ℚ)
    (topK : ℕ) :
    ∀ (pairs : List (ℚ × ℕ)) (count : ℕ), (∀ pr ∈ pairs, pr.2 < df.length) →
      ∃ recs, collectRecs df mA mI topK pairs count = .ok recs := by
  intro pairs
  induction pairs with
  | nil =>
    intro count hv
    exact ⟨[], by rw [collectRecs]⟩
  | cons pr rest ih =>
    intro count hv
    obtain ⟨sim, idx⟩ := pr
    rw [collectRecs]
    by_cases hsim : sim < (1 : ℚ)/10
    · rw [if_pos hsim]
      exact ih count (fun p hp => hv p (List.mem_cons_of_mem _ hp))
    · rw [if_neg hsim]
      have hidx : idx < df.length := hv (sim, idx) (List.mem_cons_self _ _)
      rw [List.getElem?_eq_getElem hidx]
      by_cases hstop : topK ≤ count + 1
      · exact ⟨[mkRecommendation df[idx] sim mA mI], by simp only [if_pos hstop]⟩
      · obtain ⟨recs, hrecs⟩ := ih (count + 1)
          (fun p hp => hv p (List.mem_cons_of_mem _ hp))
        exact ⟨mkRecommendation df[idx] sim mA mI :: recs,
          by simp only [if_neg hstop, hrecs, Except.map]⟩

/-- C5 (amended): a missing name yields the literal `"Unknown"`, a missing
main interest stays absent, missing numeric cells yield `0` in the
reported integer counts, and no per-candidate defect aborts the ranking;
however, when the corresponding corpus maximum is positive, a missing
numeric cell makes the derived productivity/diversity score — and with it
the total score — NaN, not `0`. -/
theorem missing_field_defaults {V : Type} (df : List AuthorRow)
    (vec : String → V) (knn : V → ℕ → List ℚ × List ℕ)
    (interests : List String) (publications : Option (List String)) (topK : ℕ)
    (hvalid : ∀ pr ∈ neighborPairs df vec knn interests publications topK,
      pr.2 < df.length) :
    (∃ recs, recommend (loadModel df vec knn) interests publications topK
      = .ok recs) ∧
    (∀ (row : AuthorRow) (sim : ℚ) (mA mI : Option ℚ),
      (mkRecommendation row sim mA mI).authorName = row.authorName.getD "Unknown" ∧
      (mkRecommendation row sim mA mI).mainInterest = row.mainInterest ∧
      (row.articlesCount = none → (mkRecommendation row sim mA mI).articlesCount = 0) ∧
      (row.interestsCount = none → (mkRecommendation row sim mA mI).interestsCount = 0) ∧
      (row.articlesCount = none → ∀ m, mA = some m → 0 < m →
        (mkRecommendation row sim mA mI).productivityScore = none ∧
        (mkRecommendation row sim mA mI).totalScore = none) ∧
      (row.interestsCount = none → ∀ m, mI = some m → 0 < m →
        (mkRecommendation row sim mA mI).diversityScore = none ∧
        (mkRecommendation row sim mA mI).totalScore = none)) := by
  constructor
  · obtain ⟨recs, hrecs⟩ := collectRecs_ok_of_valid df
      (colMax (df.map (·.articlesCount))) (colMax (df.map (·.interestsCount)))
      topK (neighborPairs df vec knn interests publications topK) 0 hvalid
    exact ⟨_, by rw [recommend_loadModel_eq, hrecs]; rfl⟩
  · intro row sim mA mI
    refine ⟨rfl, rfl, ?_, ?_, ?_, ?_⟩
    · intro h; simp [mkRecommendation, h]
    · intro h; simp [mkRecommendation, h]
    · intro h m hm hpos
      subst hm
      constructor
      · simp [mkRecommendation, normalizedMetric, h, hpos]
      · simp [mkRecommendation, normalizedMetric, totalScoreOf, h, hpos]
    · intro h m hm hpos
      subst hm
      refine ⟨by simp [mkRecommendation, normalizedMetric, h, hpos], ?_⟩
      simp [mkRecommendation, normalizedMetric, totalScoreOf, h, hpos]

/-- C9: in the knowledge-graph view, an author entity whose identifier
appears in the engine's top-100-by-total output gets final score
`max(jaccard, total)`, so the model score only raises, never lowers, the
graph-heuristic score; the entity with that blended score is part of the
pooled graph entities. -/
theorem model_score_blend {V : Type} (df : List AuthorRow) (vec : String → V)
    (knn : V → ℕ → List ℚ × List ℕ) (currentUserInterests : List String)
    (users : List UserEntity) (authors : List AuthorEntity) (a : AuthorEntity)
    (mlRecs : List Recommendation) (t : ℚ)
    (hengine : recommend (loadModel df vec knn) currentUserInterests none 100
      = .ok mlRecs)
    (ha : a ∈ authors)
    (hid : a.authorId ∈ mlRecs.map (fun r => r.authorId))
    (hscore : pyDictGet (mlRecs.map (fun r => (r.authorId, r.totalScore)))
      a.authorId = some (some t)) :
    authorEntityScore currentUserInterests a mlRecs
      = max (jaccard currentUserInterests (parseInterests a.interestsList)) t ∧
    jaccard currentUserInterests (parseInterests a.interestsList)
      ≤ authorEntityScore currentUserInterests a mlRecs ∧
    ({ etype := .author, eid := a.id + 100000,
       score := authorEntityScore currentUserInterests a mlRecs } : ScoredEntity)
      ∈ knowledgeGraphEntities currentUserInterests users authors mlRecs := by
  have hmain : authorEntityScore currentUserInterests a mlRecs
      = max (jaccard currentUserInterests (parseInterests a.interestsList)) t := by
    unfold authorEntityScore
    rw [if_pos hid, hscore]
    simp only [Option.getD_some, pyMax2]
    rcases lt_or_ge (jaccard currentUserInterests (parseInterests a.interestsList)) t
      with hlt | hge
    · rw [if_pos hlt, max_eq_right (le_of_lt hlt)]
    · rw [if_neg (not_lt.mpr hge), max_eq_left hge]
  refine ⟨hmain, ?_, ?_⟩
  · rw [hmain]
    exact le_max_left _ _
  · unfold knowledgeGraphEntities
    exact List.mem_append_right _ (List.mem_map.mpr ⟨a, ha, rfl⟩)

/-- C10: every user-type entity of the knowledge-graph pool carries the
pure Jaccard overlap with the active user's interests as its score, and
the user-type part of the pool is unchanged by whatever the trained model
returned — the max-blend applies only to author entities. -/
theorem user_score_pure_jaccard (currentUserInterests : List String)
    (users : List UserEntity) (authors : List AuthorEntity)
    (mlRecs mlRecs2 : List Recommendation) :
    (∀ e ∈ knowledgeGraphEntities currentUserInterests users authors mlRecs,
      e.etype = .user →
      ∃ u ∈ users, e.eid = u.id ∧
        e.score = jaccard currentUserInterests (parseInterests u.interestsList)) ∧
    ((knowledgeGraphEntities currentUserInterests users authors mlRecs).filter
        (fun e => decide (e.etype = .user)) =
      (knowledgeGraphEntities currentUserInterests users authors mlRecs2).filter
        (fun e => decide (e.etype = .user))) := by
  constructor
  · intro e he htype
    rcases List.mem_append.mp he with hu | hauth
    · obtain ⟨u, hu2, rfl⟩ := List.mem_map.mp hu
      exact ⟨u, hu2, rfl, rfl⟩
    · obtain ⟨a2, ha2, rfl⟩ := List.mem_map.mp hauth
      simp at htype
  · unfold knowledgeGraphEntities
    rw [List.filter_append, List.filter_append]
    have hnil : ∀ (recs : List Recommendation),
        (List.map (fun a =>
            (⟨.author, a.id + 100000,
              authorEntityScore currentUserInterests a recs⟩ : ScoredEntity))
          authors).filter (fun e => decide (e.etype = .user)) = [] := by
      intro recs
      rw [List.filter_eq_nil_iff]
      intro e he
      obtain ⟨a2, _, rfl⟩ := List.mem_map.mp he
      simp
    rw [hnil, hnil]

/-- Helper: inserting `a` into a list with the stable
descending-by-count comparison places it in front of every element of
equal count, so the count-`c` class gains `a` at the front exactly when
`a` has count `c`. -/
theorem filter_count_orderedInsert (ws : List String) (c : ℕ) (a : String) :
    ∀ l : List String,
      (List.orderedInsert (countGe ws) a l).filter (fun w => decide (ws.count w = c)) =
        if ws.count a = c then
          a :: l.filter (fun w => decide (ws.count w = c))
        else l.filter (fun w => decide (ws.count w = c)) := by
  intro l
  induction l with
  | nil =>
    by_cases hac : ws.count a = c <;> simp [List.orderedInsert, hac]
  | cons b l ih =>
    rw [List.orderedInsert]
    by_cases hr : countGe ws a b
    · rw [if_pos hr]
      by_cases hac : ws.count a = c <;> simp [List.filter_cons, hac]
    · rw [if_neg hr]
      have hab : ws.count a < ws.count b := lt_of_not_le hr
      by_cases hbc : ws.count b = c
      · have hac : ws.count a ≠ c := by
          rw [← hbc]
          exact ne_of_lt hab
        simp [List.filter_cons, hbc, hac, ih]
      · by_cases hac : ws.count a = c <;> simp [List.filter_cons, hbc, hac, ih]

/-- Helper: the stable descending-by-count sort leaves each equal-count
class in its original relative order. -/
theorem filter_count_insertionSort (ws : List String) (c : ℕ) :
    ∀ l : List String,
      (List.insertionSort (countGe ws) l).filter (fun w => decide (ws.count w = c)) =
        l.filter (fun w => decide (ws.count w = c)) := by
  intro l
  induction l with
  | nil => rfl
  | cons a l ih =>
    rw [List.insertionSort, filter_count_orderedInsert]
    by_cases hac : ws.count a = c <;> simp [List.filter_cons, hac, ih]

/-- C3: the query profile builder returns the empty string on empty input
(and never fails), returns the space-joined interests when no
publications are supplied, and otherwise appends the ten keywords chosen
from the publication tokens: the keyword ranking is a permutation of the
distinct remaining tokens in first-encountered order, sorted by
occurrence count descending, with every equal-count class kept in
first-encountered order (the stable-counter tie-break). -/
theorem profile_builder_contract (interests : List String) (pubs : List String)
    (hp : pubs ≠ []) :
    createTargetProfile [] none = "" ∧
    createTargetProfile interests none = String.intercalate " " interests ∧
    createTargetProfile interests (some pubs) = String.intercalate " "
      (interests ++ mostCommonKeys
        ((findTokens (String.intercalate " " pubs)).filter
          (fun w => w ∉ stopWords)) 10) ∧
    (∀ (ws : List String) (n : ℕ),
      mostCommonKeys ws n = (List.insertionSort (countGe ws) (firstSeen ws)).take n ∧
      (List.insertionSort (countGe ws) (firstSeen ws)).Perm (firstSeen ws) ∧
      (List.insertionSort (countGe ws) (firstSeen ws)).Sorted
        (fun a b => ws.count b ≤ ws.count a) ∧
      (∀ c : ℕ, (List.insertionSort (countGe ws) (firstSeen ws)).filter
          (fun w => decide (ws.count w = c)) =
        (firstSeen ws).filter (fun w => decide (ws.count w = c)))) := by
  refine ⟨rfl, by simp [createTargetProfile], ?_, ?_⟩
  · have hne : pubs.isEmpty = false := by
      cases pubs
      · exact absurd rfl hp
      · rfl
    simp [createTargetProfile, hne]
  · intro ws n
    exact ⟨rfl, List.perm_insertionSort (countGe ws) (firstSeen ws),
      List.sorted_insertionSort (countGe ws) (firstSeen ws),
      fun c => filter_count_insertionSort ws c (firstSeen ws)⟩

section ConcreteEvaluation

set_option allowUnsafeReducibility true

attribute [local reducible] Rat.mul Rat.add Rat.inv Rat.sub Rat.div Rat.ofScientific

/-- C1 witness: the contract instantiated on the sample corpus with
`top_k = 2`. -/
theorem recommend_contract_witness :
    (["machine learning"] : List String) ≠ [] ∧ 1 ≤ 2 ∧
    (∀ row ∈ cleanDf, row.articlesCount.isSome ∧ row.interestsCount.isSome) ∧
    recommend cleanState ["machine learning"] none 2 = .ok cleanRecs ∧
    cleanRecs.length ≤ 2 ∧
    (∀ r ∈ cleanRecs, (1 : ℚ)/10 ≤ r.similarityScore) ∧
    cleanRecs.Pairwise (fun a b => b.totalScore.getD 0 ≤ a.totalScore.getD 0) := by
  have hok : recommend cleanState ["machine learning"] none 2 = .ok cleanRecs := by
    decide
  have h := recommend_contract cleanDf (fun _ => ()) sampleKnn
    ["machine learning"] none 2 cleanRecs (by decide) (by decide) (by decide) hok
  exact ⟨by decide, by decide, by decide, hok, h.1, h.2.1, h.2.2⟩

/-- C2 witness: on the sample corpus the result equals the sorted,
truncated list of the first `top_k` threshold survivors. -/
theorem recommend_first_survivors_witness :
    1 ≤ 2 ∧
    (∀ pr ∈ neighborPairs cleanDf (fun _ => ()) sampleKnn
        ["machine learning"] none 2, pr.2 < cleanDf.length) ∧
    recommend cleanState ["machine learning"] none 2 =
      .ok ((List.insertionSort recDesc
        (specCollect cleanDf (colMax (cleanDf.map (·.articlesCount)))
          (colMax (cleanDf.map (·.interestsCount))) 2
          (neighborPairs cleanDf (fun _ => ()) sampleKnn
            ["machine learning"] none 2))).take 2) :=
  ⟨by decide, by decide,
    recommend_first_survivors cleanDf (fun _ => ()) sampleKnn
      ["machine learning"] none 2 (by decide) (by decide)⟩

/-- C5 counterexample: a candidate whose articles count is missing (NaN)
is ranked without aborting and reports `articles_count = 0`, but its
derived productivity score — and hence total score — is NaN, not the `0`
the claim asserts. -/
theorem missing_field_zero_counterexample :
    sampleRow2.articlesCount = none ∧
    recommend nanState ["machine learning"] none 1 = .ok [nanRec] ∧
    nanRec.articlesCount = 0 ∧
    nanRec.authorName = "Unknown" ∧
    nanRec.mainInterest = none ∧
    nanRec.productivityScore ≠ some 0 ∧
    nanRec.productivityScore = none ∧
    nanRec.totalScore = none := by
  exact ⟨rfl, by decide, rfl, rfl, rfl, by decide, rfl, rfl⟩

/-- C5 witness: the amended defaults theorem applied to the NaN corpus. -/
theorem missing_field_defaults_witness :
    (∀ pr ∈ neighborPairs nanDf (fun _ => ()) nanKnn
        ["machine learning"] none 1, pr.2 < nanDf.length) ∧
    (∃ recs, recommend (loadModel nanDf (fun _ => ()) nanKnn)
      ["machine learning"] none 1 = .ok recs) ∧
    (mkRecommendation sampleRow2 ((1 : ℚ)/2) (some 20) (some 5)).articlesCount = 0 ∧
    (mkRecommendation sampleRow2 ((1 : ℚ)/2) (some 20) (some 5)).productivityScore = none := by
  have h := missing_field_defaults nanDf (fun _ => ()) nanKnn
    ["machine learning"] none 1 (by decide)
  refine ⟨by decide, h.1, ?_, ?_⟩
  · exact (h.2 sampleRow2 ((1 : ℚ)/2) (some 20) (some 5)).2.2.1 rfl
  · exact ((h.2 sampleRow2 ((1 : ℚ)/2) (some 20) (some 5)).2.2.2.2.1 rfl 20 rfl
      (by decide)).1

/-- C9 witness: author `A1` appears in the engine output with total `1`,
and its graph score is `max(1/2, 1) = 1 ≥ jaccard = 1/2`. -/
theorem model_score_blend_witness :
    recommend cleanState ["machine learning"] none 100 = .ok cleanRecs ∧
    sampleAuthor ∈ [sampleAuthor] ∧
    sampleAuthor.authorId ∈ cleanRecs.map (fun r => r.authorId) ∧
    pyDictGet (cleanRecs.map (fun r => (r.authorId, r.totalScore)))
      sampleAuthor.authorId = some (some 1) ∧
    authorEntityScore ["machine learning"] sampleAuthor cleanRecs
      = max (jaccard ["machine learning"]
          (parseInterests sampleAuthor.interestsList)) 1 ∧
    jaccard ["machine learning"] (parseInterests sampleAuthor.interestsList)
      ≤ authorEntityScore ["machine learning"] sampleAuthor cleanRecs := by
  have h := model_score_blend cleanDf (fun _ => ()) sampleKnn
    ["machine learning"] [] [sampleAuthor] sampleAuthor cleanRecs 1
    (by decide) (by decide) (by decide) (by decide)
  exact ⟨by decide, by decide, by decide, by decide, h.1, h.2.1⟩

/-- C10 witness: the registered user's graph entity carries the pure
Jaccard score. -/
theorem user_score_pure_jaccard_witness :
    sampleUserEntity ∈ knowledgeGraphEntities ["machine learning"]
      [sampleUser] [sampleAuthor] cleanRecs ∧
    sampleUserEntity.etype = .user ∧
    ∃ u ∈ [sampleUser], sampleUserEntity.eid = u.id ∧
      sampleUserEntity.score
        = jaccard ["machine learning"] (parseInterests u.interestsList) := by
  have h := (user_score_pure_jaccard ["machine learning"] [sampleUser]
    [sampleAuthor] cleanRecs cleanRecs).1
  have hmem : sampleUserEntity ∈ knowledgeGraphEntities ["machine learning"]
      [sampleUser] [sampleAuthor] cleanRecs :=
    List.mem_append_left _ (List.mem_singleton.mpr rfl)
  exact ⟨hmem, rfl, h sampleUserEntity hmem rfl⟩

/-- C3 witness: on two publication strings, the ten most frequent
non-stop tokens (ties first-encountered) are appended to the interests. -/
theorem profile_builder_contract_witness :
    (["Deep learning methods research", "deep learning applications"] :
      List String) ≠ [] ∧
    createTargetProfile [] none = "" ∧
    createTargetProfile ["ml"]
      (some ["Deep learning methods research", "deep learning applications"])
      = "ml deep learning methods applications" := by
  have h := profile_builder_contract ["ml"]
    ["Deep learning methods research", "deep learning applications"] (by decide)
  refine ⟨by decide, h.1, ?_⟩
  rw [h.2.2.1]
  decide

end ConcreteEvaluation

end BackendAcademic
